import Mathlib

/-!
# libtide: `Tide::Sentry` and `Tide::detail::Tracer`

A shallow embedding of `include/tide/sentry.hpp` and `include/tide/trace.hpp`.

* A `Sentry<Traits>` object is the pair of its private members
  `(m_value, m_is_valid)`.  `Traits::value_type` is the type parameter `V`;
  value-initialisation `m_value{}` is `default`.
* `Traits::Destroy` is an effect.  It is recorded in a log: the list of the
  arguments of all calls made so far, oldest first.
* Member functions that change two objects (`swap`, the move constructor, the
  move assignment) return the pair of the states afterwards.
* A `World` is the list of the live guards of a program together with the
  `Destroy` log; the member functions are lifted to it.
* A program is a list of statements on the live guards; a statement that names a
  guard that is not live has no result.
* A guard's lifetime is the list of events between its construction and its
  destruction: conversions, moves out of it, move assignments to it.
* `std::ostream` is not part of the repository.  Its contract is the class
  `OstreamModel`: a stream state has a content, and on a plain stream (`good()`,
  formatting as newly constructed, put position at the end) the insertion of a C
  string, a `char` or an `int` appends its text.  Nothing is assumed of a stream that is
  not plain.  `Stream` is a string stream with an error state, a put position and the
  `std::hex` flag; it meets the contract.
* The streams of a program are told apart by name.  The arguments of a call are values
  of any type with an `operator<<`, which may do anything to the stream.
* The macros `NDEBUG`, `TIDE_TRACE_PREFIX` and `TIDE_TRACE_OSTREAM` are parameters:
  whether, and as what, they are defined before the header is included.
-/

namespace Tide

/-! ## sentry.hpp -/

/-- State of a `Sentry<Traits>`: the private members `m_value` and `m_is_valid`
(sentry.hpp:107-108). -/
structure Sentry (V : Type) where
  m_value : V
  m_is_valid : Bool
deriving DecidableEq, Repr

/-- The generic `std::swap(a, b)`: afterwards `a` holds the old `b` and `b` the old `a`. -/
def std_swap {α : Type} (a b : α) : α × α := (b, a)

namespace Sentry

variable {V : Type}

/-- Default constructor `Sentry()` (sentry.hpp:58-60): `m_value{}`, `m_is_valid{false}`. -/
def ctor_default [Inhabited V] : Sentry V :=
  { m_value := default, m_is_valid := false }

/-- Value constructor `Sentry(value)` (sentry.hpp:63-65): `m_value{value}`, `m_is_valid{true}`. -/
def ctor_value (value : V) : Sentry V :=
  { m_value := value, m_is_valid := true }

/-- The friend function `swap(first, second)` (sentry.hpp:95-99): the two members are
exchanged one after the other.  Returns `(first, second)` afterwards. -/
def swap (first second : Sentry V) : Sentry V × Sentry V :=
  let vs := std_swap first.m_value second.m_value
  let bs := std_swap first.m_is_valid second.m_is_valid
  ({ m_value := vs.1, m_is_valid := bs.1 }, { m_value := vs.2, m_is_valid := bs.2 })

/-- Move constructor `Sentry(Sentry&& other)` (sentry.hpp:76-79): delegates to `Sentry{}`,
then `swap(*this, other)`.  Returns `(*this, other)` afterwards. -/
def ctor_move [Inhabited V] (other : Sentry V) : Sentry V × Sentry V :=
  swap ctor_default other

/-- Move assignment `operator=(Sentry&& other)` (sentry.hpp:82-85): `swap(*this, other)`.
Returns `(*this, other)` afterwards. -/
def assign_move (self other : Sentry V) : Sentry V × Sentry V :=
  swap self other

/-- Destructor `~Sentry()` (sentry.hpp:88-92): calls `Traits::Destroy(m_value)` if
`m_is_valid`.  Takes the `Destroy` log before and returns the log afterwards. -/
def dtor (self : Sentry V) (log : List V) : List V :=
  if self.m_is_valid then log ++ [self.m_value] else log

/-- Conversion `operator value_type()` (sentry.hpp:102-104): returns `m_value`.  The
operator is not `const`, so the state afterwards is returned as well. -/
def to_value_type (self : Sentry V) : V × Sentry V :=
  (self.m_value, self)

/-- Destroys the guards of a list from left to right, threading the `Destroy` log. -/
def dtor_all : List (Sentry V) → List V → List V
  | [], log => log
  | g :: gs, log => dtor_all gs (g.dtor log)

/-- The chain `auto g2 = std::move(g); auto g3 = std::move(g2); ...` of `n` move
constructions, each from the newest holder.  Returns the earlier holders (oldest first,
each in the state its move left it in) and the final holder. -/
def move_chain [Inhabited V] : Nat → Sentry V → List (Sentry V) × Sentry V
  | 0, g => ([], g)
  | n + 1, g =>
    let r := ctor_move g
    let c := move_chain n r.1
    (r.2 :: c.1, c.2)

/-- One move out of a source guard: either a move construction (the target is a new
guard), or a move assignment into the existing guard `target`. -/
inductive MoveOut (V : Type) where
  | construct : MoveOut V
  | assign (target : Sentry V) : MoveOut V

/-- The source guard after the given move out of it. -/
def MoveOut.source_after [Inhabited V] : MoveOut V → Sentry V → Sentry V
  | .construct, source => (ctor_move source).2
  | .assign target, source => (assign_move target source).2

/-- Whether the target of the move is empty right before the move.  The target of a move
construction always is: it has just been default-constructed. -/
def MoveOut.into_empty [Inhabited V] : MoveOut V → Bool
  | .construct => !(ctor_default : Sentry V).m_is_valid
  | .assign target => !target.m_is_valid

/-- The source guard after the given moves out of it, one after the other. -/
def moved_from [Inhabited V] : List (MoveOut V) → Sentry V → Sentry V
  | [], source => source
  | m :: ms, source => moved_from ms (m.source_after source)

/-- The handles owned by the guards of a collection: the `m_value` of every guard with
`m_is_valid` set, in the order of the guards. -/
def owned_handles (gs : List (Sentry V)) : List V :=
  (gs.filter (fun g => g.m_is_valid)).map (fun g => g.m_value)

/-- Single ownership: no handle value is owned by two guards of the collection. -/
def SingleOwner (gs : List (Sentry V)) : Prop := (owned_handles gs).Nodup

instance [DecidableEq V] (gs : List (Sentry V)) : Decidable (SingleOwner gs) :=
  inferInstanceAs (Decidable (owned_handles gs).Nodup)

end Sentry

/-- A program state: the live guards in order of construction, and the arguments of the
`Traits::Destroy` calls made so far. -/
structure World (V : Type) where
  guards : List (Sentry V)
  log : List V
deriving DecidableEq, Repr

namespace World

variable {V : Type}

/-- Declares a new guard `Sentry<Traits> s;`. -/
def construct_default [Inhabited V] (w : World V) : World V :=
  { w with guards := w.guards ++ [Sentry.ctor_default] }

/-- Declares a new guard `Sentry<Traits> s{value};`. -/
def construct_value (w : World V) (value : V) : World V :=
  { w with guards := w.guards ++ [Sentry.ctor_value value] }

/-- Declares a new guard `Sentry<Traits> s{std::move(guards[src])};`. -/
def move_construct [Inhabited V] (w : World V) (src : Fin w.guards.length) : World V :=
  let r := Sentry.ctor_move (w.guards.get src)
  { w with guards := w.guards.set src r.2 ++ [r.1] }

/-- Runs `guards[tgt] = std::move(guards[src]);`.  Both states are written back, the
source last; with `tgt = src` both references name one object. -/
def move_assign (w : World V) (tgt src : Fin w.guards.length) : World V :=
  let r := Sentry.assign_move (w.guards.get tgt) (w.guards.get src)
  { w with guards := (w.guards.set tgt r.1).set src r.2 }

/-- Evaluates `static_cast<value_type>(guards[i])`; returns the value and the state
afterwards. -/
def convert (w : World V) (i : Fin w.guards.length) : V × World V :=
  let r := (w.guards.get i).to_value_type
  (r.1, { w with guards := w.guards.set i r.2 })

/-- Ends the lifetime of `guards[i]`: its destructor runs and the guard is gone. -/
def destroy (w : World V) (i : Fin w.guards.length) : World V :=
  { guards := w.guards.eraseIdx i, log := (w.guards.get i).dtor w.log }

end World

/-- The operations on a guard that leave every existing guard alive, in a program with
`n` live guards. -/
inductive Op (V : Type) (n : Nat) where
  | construct_default : Op V n
  | construct_value (value : V) : Op V n
  | move_construct (src : Fin n) : Op V n
  | move_assign (tgt src : Fin n) : Op V n
  | convert (i : Fin n) : Op V n

/-- Runs one operation on a program state. -/
def World.apply {V : Type} [Inhabited V] (w : World V) : Op V w.guards.length → World V
  | .construct_default => w.construct_default
  | .construct_value value => w.construct_value value
  | .move_construct src => w.move_construct src
  | .move_assign tgt src => w.move_assign tgt src
  | .convert i => (w.convert i).2

/-- One statement of a program on guards.  A guard is named by its position among the
live guards, oldest first; `destroy i` ends the lifetime of guard `i`. -/
inductive Stmt (V : Type) where
  | construct_default : Stmt V
  | construct_value (value : V) : Stmt V
  | move_construct (src : Nat) : Stmt V
  | move_assign (tgt src : Nat) : Stmt V
  | convert (i : Nat) : Stmt V
  | destroy (i : Nat) : Stmt V
deriving DecidableEq, Repr

/-- Runs one statement.  A statement that names a guard that is not live is not part of
any program: the result is `none`. -/
def World.exec {V : Type} [Inhabited V] (w : World V) : Stmt V → Option (World V)
  | .construct_default => some w.construct_default
  | .construct_value value => some (w.construct_value value)
  | .move_construct src =>
    if h : src < w.guards.length then some (w.move_construct ⟨src, h⟩) else none
  | .move_assign tgt src =>
    if h : tgt < w.guards.length ∧ src < w.guards.length then
      some (w.move_assign ⟨tgt, h.1⟩ ⟨src, h.2⟩)
    else none
  | .convert i =>
    if h : i < w.guards.length then some (w.convert ⟨i, h⟩).2 else none
  | .destroy i =>
    if h : i < w.guards.length then some (w.destroy ⟨i, h⟩) else none

/-- Runs the statements of a program in order. -/
def World.run {V : Type} [Inhabited V] : List (Stmt V) → World V → Option (World V)
  | [], w => some w
  | s :: prog, w =>
    match w.exec s with
    | some w2 => World.run prog w2
    | none => none

/-- The handle a statement passes to the value constructor, if it is one. -/
def Stmt.constructed {V : Type} : Stmt V → List V
  | .construct_value value => [value]
  | _ => []

/-- The handles a program passes to the value constructor, in program order. -/
def constructed_handles {V : Type} : List (Stmt V) → List V
  | [] => []
  | s :: prog => s.constructed ++ constructed_handles prog

/-- Whether every guard the statement names is live, in a program with `n` live guards. -/
def Stmt.names_live {V : Type} (n : Nat) : Stmt V → Bool
  | .construct_default => true
  | .construct_value _ => true
  | .move_construct src => decide (src < n)
  | .move_assign tgt src => decide (tgt < n) && decide (src < n)
  | .convert i => decide (i < n)
  | .destroy i => decide (i < n)

/-- The statements that end the lifetime of each of `n` live guards, oldest first. -/
def destroy_all {V : Type} (n : Nat) : List (Stmt V) :=
  List.replicate n (Stmt.destroy 0)

/-- The handles a program state accounts for: those passed to `Traits::Destroy` so far
and those owned by a live guard. -/
def World.ledger {V : Type} (w : World V) : List V :=
  w.log ++ Sentry.owned_handles w.guards

/-! ## trace.hpp -/

/-- The macro `TIDE_TRACE_PREFIX` (trace.hpp:23-25): the definition made before the header
is included when there is one, `"[TRACE] "` otherwise. -/
def TIDE_TRACE_PREFIX (user : Option String) : String :=
  match user with
  | some p => p
  | none => "[TRACE] "

/-- The contract of `std::ostream` that `trace.hpp` relies on.  `S` is the whole state of
a stream: the characters its sink holds, the put position, the error state, and the
formatting state (flags, width, fill, locale).

* `content` is the sequence of characters the sink holds.
* `plain` holds of a stream that is `good()`, whose formatting state is that of a newly
  constructed stream (decimal, width 0, no `showpos`, classic locale), whose put position
  is at the end of the content and whose sink accepts characters.
* `put_cstr`, `put_char` and `put_int` are `out << s` for a C string, a `char` and an
  `int`.  Only their effect on a plain stream is fixed: the text is appended and the
  stream is plain again.  On any other stream they may write nothing (error state),
  another text (flags, width) or overwrite (put position). -/
class OstreamModel (S : Type) where
  content : S → String
  plain : S → Bool
  put_cstr : S → String → S
  put_char : S → Char → S
  put_int : S → Int → S
  content_put_cstr : ∀ (s : S) (t : String), plain s = true →
    content (put_cstr s t) = content s ++ t
  plain_put_cstr : ∀ (s : S) (t : String), plain s = true → plain (put_cstr s t) = true
  content_put_char : ∀ (s : S) (c : Char), plain s = true →
    content (put_char s c) = content s ++ String.singleton c
  plain_put_char : ∀ (s : S) (c : Char), plain s = true → plain (put_char s c) = true
  content_put_int : ∀ (s : S) (n : Int), plain s = true →
    content (put_int s n) = content s ++ toString n
  plain_put_int : ∀ (s : S) (n : Int), plain s = true → plain (put_int s n) = true

/-- A type with a stream insertion `operator<<` on streams of state `S`: `put out a` is the
stream after `out << a`.  A user-defined `operator<<` may do anything to the stream. -/
class Insertable (S : Type) (α : Type) where
  put : S → α → S

instance {S : Type} [OstreamModel S] : Insertable S String := ⟨OstreamModel.put_cstr⟩

instance {S : Type} [OstreamModel S] : Insertable S Char := ⟨OstreamModel.put_char⟩

instance {S : Type} [OstreamModel S] : Insertable S Int := ⟨OstreamModel.put_int⟩

/-- The value of `__LINE__` is an `int` that is not negative. -/
instance {S : Type} [OstreamModel S] : Insertable S Nat :=
  ⟨fun out n => OstreamModel.put_int out (Int.ofNat n)⟩

/-- The insertion `out << a`. -/
def insert_into {S α : Type} [Insertable S α] (out : S) (a : α) : S :=
  Insertable.put out a

/-- The value `a` inserts plainly with the text `text`: on every plain stream `out << a`
appends `text` and leaves the stream plain. -/
def InsertsPlainly (S : Type) [OstreamModel S] {α : Type} [Insertable S α] (a : α)
    (text : String) : Prop :=
  ∀ out : S, OstreamModel.plain out = true →
    OstreamModel.content (insert_into out a) = OstreamModel.content out ++ text ∧
    OstreamModel.plain (insert_into out a) = true

/-- State of a `Tide::detail::Tracer`: its member `m_out` refers to a stream, which is
the state of that stream. -/
structure Tracer (S : Type) where
  m_out : S
deriving DecidableEq, Repr

/-- Constructor `Tracer(out, file, line, func)` (trace.hpp:44-47):
`m_out << TIDE_TRACE_PREFIX << file << ':' << line << ':' << func`. -/
def Tracer.ctor {S F L N : Type} [OstreamModel S] [Insertable S F] [Insertable S L]
    [Insertable S N] (user : Option String) (out : S) (file : F) (line : L) (func : N) :
    Tracer S :=
  { m_out := insert_into (insert_into (insert_into (insert_into (insert_into (insert_into
      out (TIDE_TRACE_PREFIX user)) file) ':') line) ':') func }

/-- The `PrintableObject` of trace_test.cpp:11-13, a custom object with an `operator<<`. -/
structure PrintableObject where
  value : Int
deriving DecidableEq, Repr

/-- The `operator<<` of `PrintableObject` (trace_test.cpp:15-17): `out << po.value`. -/
instance {S : Type} [OstreamModel S] : Insertable S PrintableObject :=
  ⟨fun out po => insert_into out po.value⟩

/-- One argument of a call `tracer(args...)`: a value of any type with an `operator<<`. -/
structure Arg (S : Type) where
  α : Type
  ins : Insertable S α
  val : α

/-- Packs a value as an argument of a call. -/
def Arg.of {S α : Type} [ins : Insertable S α] (val : α) : Arg S :=
  { α := α, ins := ins, val := val }

/-- The insertion `out << arg` of an argument of a call. -/
def insert_arg {S : Type} (out : S) (a : Arg S) : S := @insert_into S a.α a.ins out a.val

/-- The argument inserts plainly with the text `text`. -/
def Arg.Plain {S : Type} [OstreamModel S] (a : Arg S) (text : String) : Prop :=
  @InsertsPlainly S _ a.α a.ins a.val text

/-- The two overloads of the private `Tracer::append` (trace.hpp:67-78), on the pack
`first, rest...`.  With an empty `rest` the overload `append(Arg&&)` is the more
specialised one and is chosen: `m_out << arg << '\n'`.  Otherwise
`m_out << first << ", "; append(rest...)`. -/
def Tracer.append {S : Type} [OstreamModel S] (t : Tracer S) : Arg S → List (Arg S) → Tracer S
  | arg, [] => { m_out := insert_into (insert_arg t.m_out arg) '\n' }
  | first, r :: rest =>
    Tracer.append { m_out := insert_into (insert_arg t.m_out first) ", " } r rest

/-- The variadic `operator()(Args&&... args)` (trace.hpp:51-56) on the non-empty pack
`first, rest...`: `m_out << ": "; append(args...)`. -/
def Tracer.call_args {S : Type} [OstreamModel S] (t : Tracer S) (first : Arg S)
    (rest : List (Arg S)) : Tracer S :=
  Tracer.append { m_out := insert_into t.m_out ": " } first rest

/-- The overload `operator()()` (trace.hpp:58-62): `m_out << '\n'`. -/
def Tracer.call_empty {S : Type} [OstreamModel S] (t : Tracer S) : Tracer S :=
  { m_out := insert_into t.m_out '\n' }

/-- The call `tracer(args...)`.  Without arguments overload resolution picks the
non-template `operator()()`; with arguments only the variadic template is viable. -/
def Tracer.call {S : Type} [OstreamModel S] (t : Tracer S) : List (Arg S) → Tracer S
  | [] => t.call_empty
  | first :: rest => t.call_args first rest

/-- The macro `TIDE_TRACE_OSTREAM` (trace.hpp:27-29): the stream named by the definition
made before the header is included when there is one, `std::clog` otherwise. -/
def TIDE_TRACE_OSTREAM (user : Option String) : String :=
  match user with
  | some name => name
  | none => "std::clog"

/-- The output streams of a program: the state of each stream, by the name of the
stream. -/
abbrev Streams (S : Type) := String → S

/-- The streams after the stream `name` has come to the state `state`. -/
def write_stream {S : Type} (streams : Streams S) (name : String) (state : S) : Streams S :=
  fun n => if n = name then state else streams n

/-- The macro `TRACE(...)` (trace.hpp:94-100) invoked with the arguments `args` in the file
`file` at line `line` inside the function `func`.  With `NDEBUG` defined it expands to
`((void)0)`.  Otherwise it expands to
`Tide::detail::Tracer(TIDE_TRACE_OSTREAM, __FILE__, __LINE__, __func__)(__VA_ARGS__)`. -/
def TRACE {S : Type} [OstreamModel S] (NDEBUG : Bool) (user_pfx user_ostream : Option String)
    (streams : Streams S) (file : String) (line : Nat) (func : String)
    (args : List (Arg S)) : Streams S :=
  if NDEBUG then streams
  else
    write_stream streams (TIDE_TRACE_OSTREAM user_ostream)
      ((Tracer.ctor user_pfx (streams (TIDE_TRACE_OSTREAM user_ostream))
        file line func).call args).m_out

/-! ### A string stream

A model of the contract: a `std::ostringstream` with its error state, its put position and
the `std::hex` flag. -/

/-- State of a string stream: the characters of the buffer (`str()`), the put position
(`tellp()`), whether the stream is `good()`, and whether `std::hex` is set. -/
structure Stream where
  sink : String
  pos : Nat
  good : Bool
  hex : Bool
deriving DecidableEq, Repr

/-- The buffer after the characters of `t` have been put at position `pos`: they replace
what was there and extend the buffer at its end. -/
def write_at (sink : String) (pos : Nat) (t : String) : String :=
  String.mk (sink.data.take pos ++ t.data ++ sink.data.drop (pos + t.data.length))

/-- A formatted output of the characters `t`: nothing happens on a stream that is not
`good()`; otherwise the characters are put at the put position, which advances. -/
def Stream.write (s : Stream) (t : String) : Stream :=
  if s.good then { s with sink := write_at s.sink s.pos t, pos := s.pos + t.data.length }
  else s

/-- The characters of an `int` under the flags of the stream: base 16 of the 32-bit
unsigned value under `std::hex`, decimal otherwise. -/
def Stream.int_text (s : Stream) (n : Int) : String :=
  if s.hex then String.mk (Nat.toDigits 16 (n % 4294967296).toNat) else toString n

/-- Whether the stream is `good()`, formats in decimal and has its put position at the end
of the buffer. -/
def Stream.is_plain (s : Stream) : Bool :=
  s.good && !s.hex && decide (s.pos = s.sink.data.length)

/-- A newly constructed `std::ostringstream`. -/
def Stream.fresh : Stream := { sink := "", pos := 0, good := true, hex := false }

/-- A `std::streambuf*` as an argument, as in `out << other.rdbuf()`; `chars` are the
characters the buffer holds. -/
structure Streambuf where
  chars : String
deriving DecidableEq, Repr

/-- The `operator<<(std::streambuf*)` on a string stream: nothing on a stream that is not
`good()`; if no character is inserted `failbit` is set; otherwise the characters are
written. -/
def Stream.put_streambuf (s : Stream) (sb : Streambuf) : Stream :=
  if s.good then
    if sb.chars = "" then { s with good := false } else s.write sb.chars
  else s

/-- A user-defined type whose `operator<<` is `out.seekp(0); return out << "Z";`. -/
structure Rewind where
  mk ::
deriving DecidableEq, Repr

/-- The `operator<<` of `Rewind` on a string stream: on a stream that is not `good()`
neither `seekp` nor the insertion does anything. -/
def Stream.put_rewind (s : Stream) (_r : Rewind) : Stream :=
  if s.good then Stream.write { s with pos := 0 } "Z" else s

/-- The string stream meets the contract.  On a plain stream the characters go to the end
of the buffer, so the buffer grows by them, and the stream stays plain. -/
instance : OstreamModel Stream where
  content s := s.sink
  plain s := s.is_plain
  put_cstr s t := s.write t
  put_char s c := s.write (String.singleton c)
  put_int s n := s.write (s.int_text n)
  content_put_cstr := by
    intro s t h
    simp only [Stream.is_plain, Bool.and_eq_true, Bool.not_eq_true', decide_eq_true_eq] at h
    have hd : ∀ k, List.drop (s.sink.data.length + k) s.sink.data = [] :=
      fun k => List.drop_eq_nil_of_le (Nat.le_add_right _ _)
    apply String.ext
    simp only [Stream.write, write_at, h.1.1, h.2, if_true, List.take_length, hd,
      List.append_nil, String.data_append, String.data_singleton]
  plain_put_cstr := by
    intro s t h
    simp only [Stream.is_plain, Bool.and_eq_true, Bool.not_eq_true', decide_eq_true_eq] at h
    simp [Stream.is_plain, Stream.write, write_at, h.1.1, h.1.2, h.2]
  content_put_char := by
    intro s c h
    simp only [Stream.is_plain, Bool.and_eq_true, Bool.not_eq_true', decide_eq_true_eq] at h
    have hd : ∀ k, List.drop (s.sink.data.length + k) s.sink.data = [] :=
      fun k => List.drop_eq_nil_of_le (Nat.le_add_right _ _)
    apply String.ext
    simp only [Stream.write, write_at, h.1.1, h.2, if_true, List.take_length, hd,
      List.append_nil, String.data_append, String.data_singleton]
  plain_put_char := by
    intro s c h
    simp only [Stream.is_plain, Bool.and_eq_true, Bool.not_eq_true', decide_eq_true_eq] at h
    simp [Stream.is_plain, Stream.write, write_at, h.1.1, h.1.2, h.2]
  content_put_int := by
    intro s n h
    simp only [Stream.is_plain, Bool.and_eq_true, Bool.not_eq_true', decide_eq_true_eq] at h
    have hd : ∀ k, List.drop (s.sink.data.length + k) s.sink.data = [] :=
      fun k => List.drop_eq_nil_of_le (Nat.le_add_right _ _)
    apply String.ext
    simp only [Stream.write, write_at, h.1.1, h.2, if_true, List.take_length, hd,
      List.append_nil, String.data_append, String.data_singleton, Stream.int_text, h.1.2,
      Bool.false_eq_true, if_false]
  plain_put_int := by
    intro s n h
    simp only [Stream.is_plain, Bool.and_eq_true, Bool.not_eq_true', decide_eq_true_eq] at h
    simp [Stream.is_plain, Stream.write, write_at, Stream.int_text, h.1.1, h.1.2, h.2]

instance : Insertable Stream Streambuf := ⟨Stream.put_streambuf⟩

instance : Insertable Stream Rewind := ⟨Stream.put_rewind⟩

/-! ## Theorems -/

section SentryTheorems

variable {V : Type}

theorem Sentry.moved_from_empty [Inhabited V] (moves : List (Sentry.MoveOut V))
    (hinto : ∀ m ∈ moves, m.into_empty = true) (source : Sentry V)
    (hs : source.m_is_valid = false) :
    (Sentry.moved_from moves source).m_is_valid = false := by
  induction moves generalizing source with
  | nil => exact hs
  | cons m ms ih =>
    apply ih (fun x hx => hinto x (List.mem_cons_of_mem _ hx))
    have hm := hinto m (List.mem_cons_self _ _)
    cases m with
    | construct => rfl
    | assign target => simpa [Sentry.MoveOut.into_empty] using hm

theorem Sentry.swap_eq (first second : Sentry V) :
    Sentry.swap first second = (second, first) := rfl

theorem Sentry.ctor_move_eq [Inhabited V] (other : Sentry V) :
    Sentry.ctor_move other = (other, Sentry.ctor_default) := rfl

theorem Sentry.assign_move_eq (self other : Sentry V) :
    Sentry.assign_move self other = (other, self) := rfl

theorem Sentry.move_chain_eq [Inhabited V] (n : Nat) (g : Sentry V) :
    Sentry.move_chain n g = (List.replicate n Sentry.ctor_default, g) := by
  induction n generalizing g with
  | zero => rfl
  | succ n ih =>
    simp only [Sentry.move_chain, Sentry.ctor_move_eq, ih, List.replicate_succ]

theorem Sentry.dtor_all_eq (gs : List (Sentry V)) (log : List V) :
    Sentry.dtor_all gs log = log ++ Sentry.owned_handles gs := by
  induction gs generalizing log with
  | nil => simp [Sentry.dtor_all, Sentry.owned_handles]
  | cons g gs ih =>
    rw [Sentry.dtor_all, ih]
    cases hv : g.m_is_valid <;>
      simp [Sentry.dtor, Sentry.owned_handles, List.filter_cons, hv]

theorem Sentry.owned_handles_perm {gs gs' : List (Sentry V)} (hp : gs.Perm gs') :
    (Sentry.owned_handles gs).Perm (Sentry.owned_handles gs') :=
  (hp.filter _).map _

theorem Sentry.owned_handles_replicate_default [Inhabited V] (n : Nat) :
    Sentry.owned_handles (List.replicate n (Sentry.ctor_default : Sentry V)) = [] := by
  induction n with
  | zero => rfl
  | succ n ih =>
    simp [Sentry.owned_handles, List.replicate_succ, List.filter_cons,
      Sentry.ctor_default]

theorem list_swap_perm {α : Type} (l : List α) (i j : Nat) (hi : i < l.length)
    (hj : j < l.length) : ((l.set i l[j]).set j l[i]).Perm l := by
  classical
  rw [List.perm_iff_count]
  intro a
  have h1 := List.boole_getElem_le_count a l i hi
  have hj' : j < (l.set i l[j]).length := by simpa using hj
  have h2 : (l.set i l[j])[j] = l[j] := by
    rw [List.getElem_set]; split <;> rfl
  rw [List.count_set _ _ _ _ hj', List.count_set _ _ _ _ hi, h2]
  split <;> split <;> simp_all

theorem list_set_append_perm {α : Type} (l : List α) (i : Nat) (hi : i < l.length) (d : α) :
    (l.set i d ++ [l[i]]).Perm (d :: l) := by
  classical
  rw [List.perm_iff_count]
  intro a
  have h1 := List.boole_getElem_le_count a l i hi
  rw [List.count_append, List.count_set _ _ _ _ hi, List.count_cons, List.count_cons,
    List.count_nil]
  split <;> split <;> simp_all

theorem World.move_assign_guards (w : World V) (tgt src : Fin w.guards.length) :
    (w.move_assign tgt src).guards =
      (w.guards.set tgt w.guards[src]).set src w.guards[tgt] := rfl

theorem World.move_construct_guards [Inhabited V] (w : World V) (src : Fin w.guards.length) :
    (w.move_construct src).guards =
      w.guards.set src Sentry.ctor_default ++ [w.guards[src]] := rfl

theorem World.move_assign_perm (w : World V) (tgt src : Fin w.guards.length) :
    (w.move_assign tgt src).guards.Perm w.guards := by
  rw [World.move_assign_guards]
  exact list_swap_perm w.guards tgt src tgt.isLt src.isLt

theorem World.move_construct_perm [Inhabited V] (w : World V) (src : Fin w.guards.length) :
    (w.move_construct src).guards.Perm (Sentry.ctor_default :: w.guards) := by
  rw [World.move_construct_guards]
  exact list_set_append_perm w.guards src src.isLt _

theorem list_set_self {α : Type} (l : List α) (i : Nat) (hi : i < l.length) :
    l.set i l[i] = l := by
  apply List.ext_getElem?
  intro n
  rw [List.getElem?_set]
  split
  · next h => subst h; simp [hi]
  · rfl

theorem World.convert_eq (w : World V) (i : Fin w.guards.length) :
    w.convert i = (w.guards[i].m_value, w) := by
  simp [World.convert, Sentry.to_value_type, list_set_self]

/-- C3: start from a guard bound to `h` and move-construct a chain of `n` further guards,
each from the newest one.  There are `n` earlier holders; destroying the final holder
makes exactly one `Destroy` call, with `h`; destroying any earlier holder makes none; and
destroying all guards of the chain, in any order, makes exactly the one call `Destroy(h)`.
This holds for every `n`, so for every `n ≥ 1`. -/
theorem C3_move_chain_destroys_once [Inhabited V] (h : V) (n : Nat) (log : List V) :
    (Sentry.move_chain n (Sentry.ctor_value h)).1.length = n ∧
    (Sentry.move_chain n (Sentry.ctor_value h)).2.dtor log = log ++ [h] ∧
    (∀ g ∈ (Sentry.move_chain n (Sentry.ctor_value h)).1, ∀ l : List V, g.dtor l = l) ∧
    (∀ order : List (Sentry V),
      order.Perm ((Sentry.move_chain n (Sentry.ctor_value h)).1 ++
        [(Sentry.move_chain n (Sentry.ctor_value h)).2]) →
      Sentry.dtor_all order log = log ++ [h]) := by
  rw [Sentry.move_chain_eq]
  refine ⟨by simp, rfl, ?_, ?_⟩
  · intro g hg l
    rw [List.eq_of_mem_replicate hg]
    rfl
  · intro order hp
    have hq := Sentry.owned_handles_perm hp
    have hown : Sentry.owned_handles
        (List.replicate n (Sentry.ctor_default : Sentry V) ++ [Sentry.ctor_value h]) = [h] := by
      have h0 := Sentry.owned_handles_replicate_default (V := V) n
      simp only [Sentry.owned_handles] at h0 ⊢
      simp [List.filter_append, h0, Sentry.ctor_value]
    rw [hown] at hq
    rw [Sentry.dtor_all_eq, List.perm_singleton.mp hq]

/-- C3 at the chain of the test `SentryTest.Move`: `s{42}`, then `x`, `y`, `z`, destroyed
in the order `z`, `y`, `x`, `s`. -/
theorem C3_move_chain_destroys_once_witness :
    (Sentry.move_chain 3 (Sentry.ctor_value (42 : Int))).2.dtor [] = [42] ∧
    Sentry.dtor_all
      ((Sentry.move_chain 3 (Sentry.ctor_value (42 : Int))).2 ::
        (Sentry.move_chain 3 (Sentry.ctor_value (42 : Int))).1.reverse) [] = [42] :=
  ⟨(C3_move_chain_destroys_once (42 : Int) 3 []).2.1,
   (C3_move_chain_destroys_once (42 : Int) 3 []).2.2.2 _ (by decide)⟩

/-- C4: move construction from `other` in any state yields a new guard holding exactly the
previous `(m_value, m_is_valid)` of `other`, and leaves `other` empty: `m_is_valid = false`
and the value-initialised `m_value`. -/
theorem C4_move_ctor_transfers_state [Inhabited V] (other : Sentry V) :
    (Sentry.ctor_move other).1 = other ∧
    (Sentry.ctor_move other).1.m_value = other.m_value ∧
    (Sentry.ctor_move other).1.m_is_valid = other.m_is_valid ∧
    (Sentry.ctor_move other).2.m_is_valid = false ∧
    (Sentry.ctor_move other).2.m_value = default :=
  ⟨rfl, rfl, rfl, rfl, rfl⟩

theorem World.move_assign_exchange (w : World V) (tgt src : Fin w.guards.length) :
    (w.move_assign tgt src).guards[tgt.val]? = some (w.guards.get src) ∧
    (w.move_assign tgt src).guards[src.val]? = some (w.guards.get tgt) ∧
    (∀ i : Nat, i ≠ tgt.val → i ≠ src.val →
      (w.move_assign tgt src).guards[i]? = w.guards[i]?) := by
  refine ⟨?_, ?_, ?_⟩
  · rw [World.move_assign_guards, List.getElem?_set, List.getElem?_set]
    by_cases hts : src.val = tgt.val
    · simp [hts, Fin.ext hts]
    · simp [hts]
  · rw [World.move_assign_guards, List.getElem?_set]
    simp
  · intro i hit his
    rw [World.move_assign_guards, List.getElem?_set, List.getElem?_set]
    simp [Ne.symm hit, Ne.symm his]

/-- C5: move assignment `target = std::move(source)` is a symmetric exchange.  For all
states, afterwards the target holds the previous state of the source and the source the
previous state of the target.  In a program the assignment makes no `Destroy` call (the
log is unchanged), the two guards have exchanged their states and every other guard is
unchanged. -/
theorem C5_move_assign_is_exchange (target source : Sentry V) (w : World V)
    (tgt src : Fin w.guards.length) :
    (Sentry.assign_move target source).1 = source ∧
    (Sentry.assign_move target source).2 = target ∧
    (w.move_assign tgt src).log = w.log ∧
    (w.move_assign tgt src).guards[tgt.val]? = some (w.guards.get src) ∧
    (w.move_assign tgt src).guards[src.val]? = some (w.guards.get tgt) ∧
    (∀ i : Nat, i ≠ tgt.val → i ≠ src.val →
      (w.move_assign tgt src).guards[i]? = w.guards[i]?) := by
  exact ⟨rfl, rfl, rfl, World.move_assign_exchange w tgt src⟩

/-- C6, as stated, fails: `target{1}`, `source{2}`, then `target = std::move(source)`.
The source is not empty afterwards, it holds `(1, true)`, and destroying it calls
`Destroy(1)`. -/
theorem C6_counterexample :
    (Sentry.assign_move (Sentry.ctor_value (1 : Int)) (Sentry.ctor_value 2)).2 =
      { m_value := 1, m_is_valid := true } ∧
    ¬ ((Sentry.assign_move (Sentry.ctor_value (1 : Int)) (Sentry.ctor_value 2)).2.m_is_valid =
      false) ∧
    (Sentry.assign_move (Sentry.ctor_value (1 : Int)) (Sentry.ctor_value 2)).2.dtor [] = [1] := by
  decide

/-- C6, amended: after one or more moves out of a guard, each a move construction or a
move assignment into a target that is empty at that moment, the source is empty
(`m_is_valid = false`) and destroying it makes no `Destroy` call, however many such moves
there were.  After a move assignment into any target the source holds the previous state
of the target. -/
theorem C6_source_empty_after_moves_into_empty [Inhabited V] (source : Sentry V)
    (moves : List (Sentry.MoveOut V)) (hne : moves ≠ [])
    (hinto : ∀ m ∈ moves, m.into_empty = true) (log : List V) :
    (Sentry.moved_from moves source).m_is_valid = false ∧
    (Sentry.moved_from moves source).dtor log = log ∧
    (∀ target : Sentry V, (Sentry.assign_move target source).2 = target) := by
  have hvalid : (Sentry.moved_from moves source).m_is_valid = false := by
    cases moves with
    | nil => exact absurd rfl hne
    | cons m ms =>
      apply Sentry.moved_from_empty ms (fun x hx => hinto x (List.mem_cons_of_mem _ hx))
      have hm := hinto m (List.mem_cons_self _ _)
      cases m with
      | construct => rfl
      | assign target => simpa [Sentry.MoveOut.into_empty] using hm
  refine ⟨hvalid, ?_, fun _ => rfl⟩
  simp [Sentry.dtor, hvalid]

/-- C6, amended, at a guard bound to `42` that is moved from three times: by move
construction, by move assignment into an empty guard, by move construction again. -/
theorem C6_source_empty_after_moves_into_empty_witness :
    (Sentry.moved_from [Sentry.MoveOut.construct, Sentry.MoveOut.assign Sentry.ctor_default,
        Sentry.MoveOut.construct] (Sentry.ctor_value (42 : Int))).m_is_valid = false ∧
    (Sentry.moved_from [Sentry.MoveOut.construct, Sentry.MoveOut.assign Sentry.ctor_default,
        Sentry.MoveOut.construct] (Sentry.ctor_value (42 : Int))).dtor [] = [] :=
  ⟨(C6_source_empty_after_moves_into_empty (Sentry.ctor_value (42 : Int))
      [Sentry.MoveOut.construct, Sentry.MoveOut.assign Sentry.ctor_default,
        Sentry.MoveOut.construct] (by simp) (by decide) []).1,
   (C6_source_empty_after_moves_into_empty (Sentry.ctor_value (42 : Int))
      [Sentry.MoveOut.construct, Sentry.MoveOut.assign Sentry.ctor_default,
        Sentry.MoveOut.construct] (by simp) (by decide) []).2.1⟩

/-- C7: converting a bound guard holding `h` to `value_type` returns exactly `h` and leaves
`m_value` and `m_is_valid` as they were.  In a program the conversion of any guard returns
its `m_value` and changes nothing: every guard and the `Destroy` log are as before. -/
theorem C7_conversion_is_read_only (h : V) (w : World V) (i : Fin w.guards.length) :
    ({ m_value := h, m_is_valid := true } : Sentry V).to_value_type =
      (h, { m_value := h, m_is_valid := true }) ∧
    (w.convert i).1 = (w.guards.get i).m_value ∧
    (w.convert i).2.guards = w.guards ∧
    (w.convert i).2.log = w.log := by
  rw [World.convert_eq]
  exact ⟨rfl, rfl, rfl, rfl⟩

/-- C8: if no handle is owned by two guards of a program, then after a move construction
from any guard, and after a move assignment between any two guards, still no handle is
owned by two guards.  The owned handles are the same up to order. -/
theorem C8_moves_preserve_single_owner [Inhabited V] (w : World V)
    (hw : Sentry.SingleOwner w.guards) :
    (∀ src : Fin w.guards.length, Sentry.SingleOwner (w.move_construct src).guards) ∧
    (∀ tgt src : Fin w.guards.length, Sentry.SingleOwner (w.move_assign tgt src).guards) ∧
    (∀ src : Fin w.guards.length,
      (Sentry.owned_handles (w.move_construct src).guards).Perm
        (Sentry.owned_handles w.guards)) ∧
    (∀ tgt src : Fin w.guards.length,
      (Sentry.owned_handles (w.move_assign tgt src).guards).Perm
        (Sentry.owned_handles w.guards)) := by
  have hc : ∀ src : Fin w.guards.length,
      (Sentry.owned_handles (w.move_construct src).guards).Perm
        (Sentry.owned_handles w.guards) := fun src => by
    have hp := Sentry.owned_handles_perm (w.move_construct_perm src)
    have hd : Sentry.owned_handles ((Sentry.ctor_default : Sentry V) :: w.guards) =
        Sentry.owned_handles w.guards := by
      simp [Sentry.owned_handles, List.filter_cons, Sentry.ctor_default]
    rwa [hd] at hp
  have ha : ∀ tgt src : Fin w.guards.length,
      (Sentry.owned_handles (w.move_assign tgt src).guards).Perm
        (Sentry.owned_handles w.guards) := fun tgt src =>
    Sentry.owned_handles_perm (w.move_assign_perm tgt src)
  exact ⟨fun src => (hc src).nodup_iff.mpr hw, fun tgt src => (ha tgt src).nodup_iff.mpr hw,
    hc, ha⟩

/-- C8 at the guards `{1}`, empty, `{2}`: move construction from the first, and move
assignment of the third to the first. -/
theorem C8_moves_preserve_single_owner_witness :
    Sentry.SingleOwner
      [Sentry.ctor_value (1 : Int), Sentry.ctor_default, Sentry.ctor_value 2] ∧
    Sentry.SingleOwner
      ((World.mk [Sentry.ctor_value (1 : Int), Sentry.ctor_default, Sentry.ctor_value 2]
        []).move_construct ⟨0, by decide⟩).guards ∧
    Sentry.SingleOwner
      ((World.mk [Sentry.ctor_value (1 : Int), Sentry.ctor_default, Sentry.ctor_value 2]
        []).move_assign ⟨0, by decide⟩ ⟨2, by decide⟩).guards :=
  ⟨by decide,
   (C8_moves_preserve_single_owner
      (World.mk [Sentry.ctor_value (1 : Int), Sentry.ctor_default, Sentry.ctor_value 2] [])
      (by decide)).1 _,
   (C8_moves_preserve_single_owner
      (World.mk [Sentry.ctor_value (1 : Int), Sentry.ctor_default, Sentry.ctor_value 2] [])
      (by decide)).2.1 _ _⟩

theorem Sentry.owned_handles_append (gs hs : List (Sentry V)) :
    Sentry.owned_handles (gs ++ hs) = Sentry.owned_handles gs ++ Sentry.owned_handles hs := by
  simp [Sentry.owned_handles, List.filter_append]

theorem Sentry.dtor_eq (g : Sentry V) (log : List V) :
    g.dtor log = log ++ Sentry.owned_handles [g] := by
  cases hv : g.m_is_valid <;> simp [Sentry.dtor, Sentry.owned_handles, List.filter_cons, hv]

theorem list_eraseIdx_perm {α : Type} (l : List α) (i : Nat) (hi : i < l.length) :
    (l[i] :: l.eraseIdx i).Perm l := by
  induction l generalizing i with
  | nil => exact absurd hi (by simp)
  | cons a l ih =>
    cases i with
    | zero => exact List.Perm.refl _
    | succ j =>
      have hj : j < l.length := by simpa using hi
      have h1 : (a :: l)[j + 1] = l[j] := rfl
      rw [h1, List.eraseIdx_cons_succ]
      exact (List.Perm.swap a l[j] _).trans ((ih j hj).cons a)

theorem World.exec_ledger [Inhabited V] (w w2 : World V) (s : Stmt V)
    (hs : w.exec s = some w2) : w2.ledger.Perm (w.ledger ++ s.constructed) := by
  cases s with
  | construct_default =>
    cases Option.some.inj hs
    simp [World.ledger, World.construct_default, Sentry.owned_handles_append,
      Sentry.owned_handles, Sentry.ctor_default, Stmt.constructed]
  | construct_value value =>
    cases Option.some.inj hs
    simp [World.ledger, World.construct_value, Sentry.owned_handles_append,
      Sentry.owned_handles, Sentry.ctor_value, Stmt.constructed]
  | move_construct src =>
    simp only [World.exec] at hs
    split at hs
    · next h =>
      cases Option.some.inj hs
      have hp := Sentry.owned_handles_perm (w.move_construct_perm ⟨src, h⟩)
      have hd : Sentry.owned_handles ((Sentry.ctor_default : Sentry V) :: w.guards) =
          Sentry.owned_handles w.guards := by
        simp [Sentry.owned_handles, List.filter_cons, Sentry.ctor_default]
      rw [hd] at hp
      simpa [World.ledger, Stmt.constructed, World.move_construct] using hp.append_left w.log
    · exact absurd hs (by simp)
  | move_assign tgt src =>
    simp only [World.exec] at hs
    split at hs
    · next h =>
      cases Option.some.inj hs
      have hp := Sentry.owned_handles_perm (w.move_assign_perm ⟨tgt, h.1⟩ ⟨src, h.2⟩)
      simpa [World.ledger, Stmt.constructed, World.move_assign] using hp.append_left w.log
    · exact absurd hs (by simp)
  | convert i =>
    simp only [World.exec] at hs
    split at hs
    · next h =>
      cases Option.some.inj hs
      rw [World.convert_eq]
      simp [Stmt.constructed]
    · exact absurd hs (by simp)
  | destroy i =>
    simp only [World.exec] at hs
    split at hs
    · next h =>
      cases Option.some.inj hs
      have hp := Sentry.owned_handles_perm (list_eraseIdx_perm w.guards i h)
      have hc : Sentry.owned_handles (w.guards[i] :: w.guards.eraseIdx i) =
          Sentry.owned_handles [w.guards[i]] ++ Sentry.owned_handles (w.guards.eraseIdx i) :=
        Sentry.owned_handles_append [w.guards[i]] _
      rw [hc] at hp
      simp only [World.ledger, World.destroy, Stmt.constructed, List.append_nil,
        List.get_eq_getElem, Sentry.dtor_eq, List.append_assoc]
      exact hp.append_left w.log
    · exact absurd hs (by simp)

theorem World.run_ledger [Inhabited V] (prog : List (Stmt V)) (w w2 : World V)
    (hr : World.run prog w = some w2) :
    w2.ledger.Perm (w.ledger ++ constructed_handles prog) := by
  induction prog generalizing w with
  | nil =>
    cases Option.some.inj hr
    simp [constructed_handles]
  | cons s prog ih =>
    simp only [World.run] at hr
    cases he : w.exec s with
    | none => rw [he] at hr; exact absurd hr (by simp)
    | some w1 =>
      rw [he] at hr
      have h1 := World.exec_ledger w w1 s he
      have h2 := ih w1 hr
      rw [constructed_handles, ← List.append_assoc]
      exact h2.trans (h1.append_right _)

theorem World.exec_isSome [Inhabited V] (w : World V) (s : Stmt V) :
    (w.exec s).isSome = s.names_live w.guards.length := by
  cases s <;> simp only [World.exec, Stmt.names_live] <;> try rfl
  all_goals split <;> simp_all

theorem World.run_destroy_all [Inhabited V] (gs : List (Sentry V)) (log : List V) :
    World.run (destroy_all gs.length) { guards := gs, log := log } =
      some { guards := [], log := log ++ Sentry.owned_handles gs } := by
  induction gs generalizing log with
  | nil => simp [destroy_all, World.run, Sentry.owned_handles]
  | cons g gs ih =>
    have hstep : (World.mk (g :: gs) log).exec (Stmt.destroy 0) =
        some { guards := gs, log := g.dtor log } := by
      simp [World.exec, World.destroy]
    have hrep : destroy_all (V := V) (g :: gs).length =
        Stmt.destroy 0 :: destroy_all gs.length := by
      simp [destroy_all, List.replicate_succ]
    rw [hrep, World.run, hstep]
    simp only
    rw [ih, Sentry.dtor_eq]
    have happ := Sentry.owned_handles_append [g] gs
    simp only [List.singleton_append] at happ
    rw [happ, List.append_assoc]

/-- C17: run any program of default constructions, value constructions, move
constructions, move assignments, conversions and destructions from the state with no
guard.  If at the end every guard has been destroyed, the arguments passed to
`Traits::Destroy` are, as a multiset, exactly the handles passed to the value
constructor: each constructed handle is destroyed exactly once and nothing else is. -/
theorem C17_exactly_once_cleanup [Inhabited V] (prog : List (Stmt V)) (w : World V)
    (hrun : World.run prog { guards := [], log := [] } = some w) (hall : w.guards = []) :
    Multiset.ofList w.log = Multiset.ofList (constructed_handles prog) ∧
    w.log.Perm (constructed_handles prog) := by
  have hp := World.run_ledger prog _ w hrun
  simp only [World.ledger, hall, Sentry.owned_handles, List.filter_nil, List.map_nil,
    List.append_nil, List.nil_append] at hp
  exact ⟨Multiset.coe_eq_coe.mpr hp, hp⟩

/-- C17 at a program with two handles: `a{1}`, `b`, `c{2}`, then `b = std::move(a)`,
`a = std::move(c)`, `Sentry d{std::move(b)}`, then every guard is destroyed, oldest
first.  The run ends with no guard and the calls `Destroy(2)`, `Destroy(1)`. -/
theorem C17_exactly_once_cleanup_witness :
    World.run
      ([Stmt.construct_value (1 : Int), Stmt.construct_default, Stmt.construct_value 2,
        Stmt.move_assign 1 0, Stmt.move_assign 0 2, Stmt.move_construct 1] ++
        (destroy_all 4 : List (Stmt Int)))
      { guards := [], log := [] } = some { guards := [], log := [2, 1] } ∧
    Multiset.ofList [(2 : Int), 1] = Multiset.ofList [1, 2] :=
  ⟨by decide,
   (C17_exactly_once_cleanup
      ([Stmt.construct_value (1 : Int), Stmt.construct_default, Stmt.construct_value 2,
        Stmt.move_assign 1 0, Stmt.move_assign 0 2, Stmt.move_construct 1] ++
        (destroy_all 4 : List (Stmt Int)))
      { guards := [], log := [2, 1] } (by decide) rfl).1⟩

/-- C18: `swap` on two guard states is a symmetric involution.  `swap(a, b)` is the mirror
image of `swap(b, a)`; swapping the same pair twice restores both states; and so
`a = std::move(b)` followed by `b = std::move(a)` restores both guards, as does a second
`a = std::move(b)`. -/
theorem C18_swap_symmetric_involution (a b : Sentry V) :
    Sentry.swap a b = ((Sentry.swap b a).2, (Sentry.swap b a).1) ∧
    Sentry.swap (Sentry.swap a b).1 (Sentry.swap a b).2 = (a, b) ∧
    Sentry.assign_move (Sentry.assign_move a b).2 (Sentry.assign_move a b).1 = (b, a) ∧
    Sentry.assign_move (Sentry.assign_move a b).1 (Sentry.assign_move a b).2 = (a, b) :=
  ⟨rfl, rfl, rfl, rfl⟩

end SentryTheorems

section TracerTheorems

variable {S : Type} [OstreamModel S]

theorem text_newline : String.singleton '\n' = "\n" := rfl

theorem text_colon : String.singleton ':' = ":" := rfl

theorem inserts_plainly_cstr (t : String) : InsertsPlainly S t t :=
  fun out h => ⟨OstreamModel.content_put_cstr out t h, OstreamModel.plain_put_cstr out t h⟩

theorem inserts_plainly_char (c : Char) : InsertsPlainly S c (String.singleton c) :=
  fun out h => ⟨OstreamModel.content_put_char out c h, OstreamModel.plain_put_char out c h⟩

theorem inserts_plainly_int (n : Int) : InsertsPlainly S n (toString n) :=
  fun out h => ⟨OstreamModel.content_put_int out n h, OstreamModel.plain_put_int out n h⟩

theorem inserts_plainly_nat (n : Nat) : InsertsPlainly S n (toString n) :=
  fun out h =>
    ⟨OstreamModel.content_put_int out (Int.ofNat n) h,
     OstreamModel.plain_put_int out (Int.ofNat n) h⟩

theorem inserts_plainly_printable (po : PrintableObject) :
    InsertsPlainly S po (toString po.value) :=
  fun out h => inserts_plainly_int po.value out h

theorem intercalate_go_append (x y sep : String) (l : List String) :
    String.intercalate.go (x ++ y) sep l = x ++ String.intercalate.go y sep l := by
  induction l generalizing y with
  | nil => rfl
  | cons c l ih =>
    simp only [String.intercalate.go]
    rw [String.append_assoc x, String.append_assoc x, ih, String.append_assoc]

theorem intercalate_cons_cons (sep a b : String) (l : List String) :
    String.intercalate sep (a :: b :: l) = a ++ sep ++ String.intercalate sep (b :: l) := by
  simp only [String.intercalate, String.intercalate.go]
  rw [String.append_assoc, intercalate_go_append, intercalate_go_append, String.append_assoc]

theorem Tracer.ctor_plain {F L N : Type} [Insertable S F] [Insertable S L] [Insertable S N]
    (user : Option String) (out : S) (file : F) (line : L) (func : N) (tf tl tn : String)
    (hout : OstreamModel.plain out = true) (hf : InsertsPlainly S file tf)
    (hl : InsertsPlainly S line tl) (hn : InsertsPlainly S func tn) :
    OstreamModel.content (Tracer.ctor user out file line func).m_out =
      OstreamModel.content out ++ (TIDE_TRACE_PREFIX user ++ tf ++ ":" ++ tl ++ ":" ++ tn) ∧
    OstreamModel.plain (Tracer.ctor user out file line func).m_out = true := by
  obtain ⟨c1, p1⟩ := inserts_plainly_cstr (TIDE_TRACE_PREFIX user) out hout
  obtain ⟨c2, p2⟩ := hf _ p1
  obtain ⟨c3, p3⟩ := inserts_plainly_char ':' _ p2
  obtain ⟨c4, p4⟩ := hl _ p3
  obtain ⟨c5, p5⟩ := inserts_plainly_char ':' _ p4
  obtain ⟨c6, p6⟩ := hn _ p5
  refine ⟨?_, p6⟩
  simp only [Tracer.ctor]
  rw [c6, c5, c4, c3, c2, c1, text_colon]
  simp only [String.append_assoc]

theorem Tracer.append_plain (t : Tracer S) (a : Arg S) (rest : List (Arg S)) (ta : String)
    (trest : List String) (ht : OstreamModel.plain t.m_out = true)
    (hargs : List.Forall₂ Arg.Plain (a :: rest) (ta :: trest)) :
    OstreamModel.content (t.append a rest).m_out =
      OstreamModel.content t.m_out ++ (String.intercalate ", " (ta :: trest) ++ "\n") ∧
    OstreamModel.plain (t.append a rest).m_out = true := by
  induction rest generalizing t a ta trest with
  | nil =>
    cases hargs with
    | cons ha hrest =>
      cases hrest
      obtain ⟨c1, p1⟩ := ha _ ht
      obtain ⟨c2, p2⟩ := inserts_plainly_char '\n' _ p1
      refine ⟨?_, p2⟩
      simp only [Tracer.append, insert_arg]
      rw [c2, c1, text_newline]
      simp only [String.intercalate, String.intercalate.go, String.append_assoc]
  | cons b rest ih =>
    cases hargs with
    | cons ha hrest =>
      cases hrest with
      | cons hb hrest2 =>
        rename_i tb trest2
        obtain ⟨c1, p1⟩ := ha _ ht
        obtain ⟨c2, p2⟩ := inserts_plainly_cstr ", " _ p1
        have hih := ih { m_out := insert_into (insert_arg t.m_out a) ", " } b tb trest2 p2
          (List.Forall₂.cons hb hrest2)
        refine ⟨?_, hih.2⟩
        rw [Tracer.append, hih.1]
        simp only [insert_arg]
        rw [c2, c1, intercalate_cons_cons]
        simp only [String.append_assoc]

theorem Tracer.call_args_plain (t : Tracer S) (a : Arg S) (rest : List (Arg S)) (ta : String)
    (trest : List String) (ht : OstreamModel.plain t.m_out = true)
    (hargs : List.Forall₂ Arg.Plain (a :: rest) (ta :: trest)) :
    OstreamModel.content (t.call (a :: rest)).m_out =
      OstreamModel.content t.m_out ++
        (": " ++ String.intercalate ", " (ta :: trest) ++ "\n") ∧
    OstreamModel.plain (t.call (a :: rest)).m_out = true := by
  obtain ⟨c1, p1⟩ := inserts_plainly_cstr ": " t.m_out ht
  have h := Tracer.append_plain { m_out := insert_into t.m_out ": " } a rest ta trest p1 hargs
  refine ⟨?_, h.2⟩
  simp only [Tracer.call, Tracer.call_args]
  rw [h.1, c1]
  simp only [String.append_assoc]

theorem Tracer.call_empty_plain (t : Tracer S) (ht : OstreamModel.plain t.m_out = true) :
    OstreamModel.content (t.call []).m_out = OstreamModel.content t.m_out ++ "\n" ∧
    OstreamModel.plain (t.call []).m_out = true := by
  obtain ⟨c1, p1⟩ := inserts_plainly_char '\n' t.m_out ht
  exact ⟨by simp only [Tracer.call, Tracer.call_empty]; rw [c1, text_newline], p1⟩

theorem TRACE_debug_at (user_pfx user_ostream : Option String) (streams : Streams S)
    (file : String) (line : Nat) (func : String) (args : List (Arg S)) :
    TRACE false user_pfx user_ostream streams file line func args
        (TIDE_TRACE_OSTREAM user_ostream) =
      ((Tracer.ctor user_pfx (streams (TIDE_TRACE_OSTREAM user_ostream))
        file line func).call args).m_out := by
  simp [TRACE, write_stream]

theorem TRACE_debug_other (user_pfx user_ostream : Option String) (streams : Streams S)
    (file : String) (line : Nat) (func : String) (args : List (Arg S)) (name : String)
    (hn : name ≠ TIDE_TRACE_OSTREAM user_ostream) :
    TRACE false user_pfx user_ostream streams file line func args name = streams name := by
  simp [TRACE, write_stream, hn]

theorem TRACE_header_plain (user_pfx : Option String) (out : S) (file : String) (line : Nat)
    (func : String) (hout : OstreamModel.plain out = true) :
    OstreamModel.content (Tracer.ctor user_pfx out file line func).m_out =
      OstreamModel.content out ++
        (TIDE_TRACE_PREFIX user_pfx ++ file ++ ":" ++ toString line ++ ":" ++ func) ∧
    OstreamModel.plain (Tracer.ctor user_pfx out file line func).m_out = true :=
  Tracer.ctor_plain user_pfx out file line func file (toString line) func hout
    (inserts_plainly_cstr file) (inserts_plainly_nat line) (inserts_plainly_cstr func)

/-- C10, as stated, fails on streams that are not plain.  On a stream with an error bit
set the constructor writes nothing.  On a string stream constructed from `"XXXXXXXXXX"`
the put position is 0 and the header overwrites the content instead of following it.
After `std::hex` the line 14 is written as `e`.  With the `rdbuf()` of an empty buffer as
`file` on a new stream, `failbit` is set and nothing follows the prefix. -/
theorem C10_counterexample :
    OstreamModel.content (Tracer.ctor none
      { sink := "", pos := 0, good := false, hex := false : Stream }
      "FILE" "LINE" "FUNC").m_out = "" ∧
    OstreamModel.content (Tracer.ctor none
      { sink := "XXXXXXXXXX", pos := 0, good := true, hex := false : Stream }
      "FILE" "LINE" "FUNC").m_out = "[TRACE] FILE:LINE:FUNC" ∧
    OstreamModel.content (Tracer.ctor none
      { sink := "", pos := 0, good := true, hex := true : Stream }
      "foo.cpp" (14 : Nat) "bar").m_out = "[TRACE] foo.cpp:e:bar" ∧
    OstreamModel.content (Tracer.ctor none Stream.fresh (Streambuf.mk "") "LINE"
      "FUNC").m_out = "[TRACE] " := by
  decide

/-- C10, amended: on a plain stream (`good()`, formatting as newly constructed, put
position at the end), for all `file`, `line` and `func` that insert plainly, constructing
a `Tracer` appends to the stream exactly `TIDE_TRACE_PREFIX`, the text of `file`, `":"`,
the text of `line`, `":"` and the text of `func`, and nothing else, and leaves the stream
plain.  `TIDE_TRACE_PREFIX` is `"[TRACE] "` when not configured and the configured text
otherwise. -/
theorem C10_tracer_ctor_appends_header {F L N : Type} [Insertable S F] [Insertable S L]
    [Insertable S N] (user : Option String) (out : S) (file : F) (line : L) (func : N)
    (tf tl tn : String) (hout : OstreamModel.plain out = true)
    (hf : InsertsPlainly S file tf) (hl : InsertsPlainly S line tl)
    (hn : InsertsPlainly S func tn) :
    OstreamModel.content (Tracer.ctor user out file line func).m_out =
      OstreamModel.content out ++ (TIDE_TRACE_PREFIX user ++ tf ++ ":" ++ tl ++ ":" ++ tn) ∧
    OstreamModel.plain (Tracer.ctor user out file line func).m_out = true ∧
    TIDE_TRACE_PREFIX none = "[TRACE] " ∧
    (∀ p : String, TIDE_TRACE_PREFIX (some p) = p) :=
  ⟨(Tracer.ctor_plain user out file line func tf tl tn hout hf hl hn).1,
   (Tracer.ctor_plain user out file line func tf tl tn hout hf hl hn).2, rfl, fun _ => rfl⟩

/-- C10, amended, at the tests `TracerTest.Constructor`: on a new string stream with
`"FILE"`, `"LINE"`, `"FUNC"` the content is `"[TRACE] FILE:LINE:FUNC"`, and
`"[PREFIX] FILE:LINE:FUNC"` with the prefix `"[PREFIX] "`. -/
theorem C10_tracer_ctor_appends_header_witness :
    OstreamModel.content (Tracer.ctor none Stream.fresh "FILE" "LINE" "FUNC").m_out =
      OstreamModel.content Stream.fresh ++
        (TIDE_TRACE_PREFIX none ++ "FILE" ++ ":" ++ "LINE" ++ ":" ++ "FUNC") ∧
    OstreamModel.content (Tracer.ctor none Stream.fresh "FILE" "LINE" "FUNC").m_out =
      "[TRACE] FILE:LINE:FUNC" ∧
    OstreamModel.content
      (Tracer.ctor (some "[PREFIX] ") Stream.fresh "FILE" "LINE" "FUNC").m_out =
      "[PREFIX] FILE:LINE:FUNC" :=
  ⟨(C10_tracer_ctor_appends_header none Stream.fresh "FILE" "LINE" "FUNC" "FILE" "LINE" "FUNC"
      (by decide) (inserts_plainly_cstr "FILE") (inserts_plainly_cstr "LINE")
      (inserts_plainly_cstr "FUNC")).1,
   by decide, by decide⟩

/-- C11, as stated, fails.  On a stream with an error bit set the call writes nothing.  On
a new string stream the argument `other.rdbuf()` of an empty buffer sets `failbit`, so the
newline is not written: the content is `": "` only. -/
theorem C11_counterexample :
    OstreamModel.content ((Tracer.mk
      { sink := "", pos := 0, good := false, hex := false : Stream }).call
      [Arg.of "test message"]).m_out = "" ∧
    OstreamModel.content ((Tracer.mk Stream.fresh).call
      [Arg.of (Streambuf.mk "")]).m_out = ": " := by
  decide

/-- C11, amended: on a plain stream, for every non-empty argument list `a :: rest` whose
arguments insert plainly, the call `tracer(a, rest...)` appends to the stream exactly
`": "`, then the texts of the arguments joined by `", "` (no trailing separator), then one
newline, and leaves the stream plain. -/
theorem C11_call_with_args_appends_joined (t : Tracer S) (a : Arg S) (rest : List (Arg S))
    (ta : String) (trest : List String) (ht : OstreamModel.plain t.m_out = true)
    (hargs : List.Forall₂ Arg.Plain (a :: rest) (ta :: trest)) :
    OstreamModel.content (t.call (a :: rest)).m_out =
      OstreamModel.content t.m_out ++
        (": " ++ String.intercalate ", " (ta :: trest) ++ "\n") ∧
    OstreamModel.plain (t.call (a :: rest)).m_out = true :=
  Tracer.call_args_plain t a rest ta trest ht hargs

/-- C11, amended, at the tests: after the header on a new string stream the argument
`"test message"` gives `"[TRACE] FILE:LINE:FUNC: test message\n"`, the object
`PrintableObject{42}` gives `"[TRACE] FILE:LINE:FUNC: 42\n"`, and the three arguments
`"a"`, `7`, `'c'` on a new stream give `": a, 7, c\n"`. -/
theorem C11_call_with_args_appends_joined_witness :
    OstreamModel.content ((Tracer.mk Stream.fresh).call
      [Arg.of "a", Arg.of (7 : Nat), Arg.of 'c']).m_out =
      OstreamModel.content Stream.fresh ++
        (": " ++ String.intercalate ", " ["a", toString 7, String.singleton 'c'] ++ "\n") ∧
    OstreamModel.content ((Tracer.mk Stream.fresh).call
      [Arg.of "a", Arg.of (7 : Nat), Arg.of 'c']).m_out = ": a, 7, c\n" ∧
    OstreamModel.content ((Tracer.ctor none Stream.fresh "FILE" "LINE" "FUNC").call
      [Arg.of "test message"]).m_out = "[TRACE] FILE:LINE:FUNC: test message\n" ∧
    OstreamModel.content ((Tracer.ctor none Stream.fresh "FILE" "LINE" "FUNC").call
      [Arg.of (PrintableObject.mk 42)]).m_out = "[TRACE] FILE:LINE:FUNC: 42\n" :=
  ⟨(C11_call_with_args_appends_joined (Tracer.mk Stream.fresh) (Arg.of "a")
      [Arg.of (7 : Nat), Arg.of 'c'] "a" [toString 7, String.singleton 'c'] (by decide)
      (List.Forall₂.cons (inserts_plainly_cstr "a")
        (List.Forall₂.cons (inserts_plainly_nat 7)
          (List.Forall₂.cons (inserts_plainly_char 'c') List.Forall₂.nil)))).1,
   by decide, by decide, by decide⟩

/-- C12, as stated, fails on a stream with an error bit set: the call `tracer()` writes
nothing, no newline is appended. -/
theorem C12_counterexample :
    OstreamModel.content ((Tracer.mk
      { sink := "[TRACE] FILE:LINE:FUNC", pos := 22, good := false, hex := false :
        Stream }).call []).m_out = "[TRACE] FILE:LINE:FUNC" := by
  decide

/-- C12, amended: on a plain stream the call `tracer()` without arguments appends exactly
one newline and nothing else, no `": "`, and leaves the stream plain.  On a tracer that has
just been constructed on a plain stream, the stream then holds what it held before, the
prefix, `file:line:func` and the newline. -/
theorem C12_call_without_args_appends_newline {F L N : Type} [Insertable S F]
    [Insertable S L] [Insertable S N] (t : Tracer S) (user : Option String) (out : S)
    (file : F) (line : L) (func : N) (tf tl tn : String)
    (ht : OstreamModel.plain t.m_out = true) (hout : OstreamModel.plain out = true)
    (hf : InsertsPlainly S file tf) (hl : InsertsPlainly S line tl)
    (hn : InsertsPlainly S func tn) :
    OstreamModel.content (t.call []).m_out = OstreamModel.content t.m_out ++ "\n" ∧
    OstreamModel.plain (t.call []).m_out = true ∧
    OstreamModel.content ((Tracer.ctor user out file line func).call []).m_out =
      OstreamModel.content out ++
        (TIDE_TRACE_PREFIX user ++ tf ++ ":" ++ tl ++ ":" ++ tn ++ "\n") := by
  have hc := Tracer.ctor_plain user out file line func tf tl tn hout hf hl hn
  have he := Tracer.call_empty_plain (Tracer.ctor user out file line func) hc.2
  refine ⟨(Tracer.call_empty_plain t ht).1, (Tracer.call_empty_plain t ht).2, ?_⟩
  rw [he.1, hc.1]
  simp only [String.append_assoc]

/-- C12, amended, at the test `TracerTest.OperatorCallEmpty`: after the header on a new
string stream the content is `"[TRACE] FILE:LINE:FUNC\n"`. -/
theorem C12_call_without_args_appends_newline_witness :
    OstreamModel.content ((Tracer.ctor none Stream.fresh "FILE" "LINE" "FUNC").call []).m_out =
      OstreamModel.content Stream.fresh ++
        (TIDE_TRACE_PREFIX none ++ "FILE" ++ ":" ++ "LINE" ++ ":" ++ "FUNC" ++ "\n") ∧
    OstreamModel.content ((Tracer.ctor none Stream.fresh "FILE" "LINE" "FUNC").call []).m_out =
      "[TRACE] FILE:LINE:FUNC\n" :=
  ⟨(C12_call_without_args_appends_newline (Tracer.mk Stream.fresh) none Stream.fresh
      "FILE" "LINE" "FUNC" "FILE" "LINE" "FUNC" (by decide) (by decide)
      (inserts_plainly_cstr "FILE") (inserts_plainly_cstr "LINE")
      (inserts_plainly_cstr "FUNC")).2.2,
   by decide⟩

/-- C13, as stated, fails: in a debug build `TRACE()` at line 14 of `foo.cpp` inside `bar`
leaves `"[TRACE] foo.cpp:14:bar\n"` on a new `std::clog`.  A newline is written after
`prefix ++ file:line:func`.  After `std::hex` the line is written as `e`. -/
theorem C13_counterexample :
    OstreamModel.content
      (TRACE false none none (fun _ => Stream.fresh) "foo.cpp" 14 "bar" [] "std::clog") =
      "[TRACE] foo.cpp:14:bar\n" ∧
    OstreamModel.content
      (TRACE false none none (fun _ => Stream.fresh) "foo.cpp" 14 "bar" [] "std::clog") ≠
      "[TRACE] foo.cpp:14:bar" ∧
    OstreamModel.content
      (TRACE false none none
        (fun _ => { sink := "", pos := 0, good := true, hex := true : Stream })
        "foo.cpp" 14 "bar" [] "std::clog") = "[TRACE] foo.cpp:e:bar\n" := by
  decide

/-- C13, amended: in a debug build, when the stream `TIDE_TRACE_OSTREAM` is plain
(`good()`, formatting as newly constructed, put position at the end), `TRACE()` with zero
arguments appends to it the prefix, `file:line:func` with the line in decimal, and then
exactly one newline; no `": "` is written.  The stream is plain afterwards. -/
theorem C13_trace_without_args_appends_newline (user_pfx user_ostream : Option String)
    (streams : Streams S) (file : String) (line : Nat) (func : String)
    (hplain : OstreamModel.plain (streams (TIDE_TRACE_OSTREAM user_ostream)) = true) :
    OstreamModel.content (TRACE false user_pfx user_ostream streams file line func []
        (TIDE_TRACE_OSTREAM user_ostream)) =
      OstreamModel.content (streams (TIDE_TRACE_OSTREAM user_ostream)) ++
        (TIDE_TRACE_PREFIX user_pfx ++ file ++ ":" ++ toString line ++ ":" ++ func ++
          "\n") ∧
    OstreamModel.plain (TRACE false user_pfx user_ostream streams file line func []
        (TIDE_TRACE_OSTREAM user_ostream)) = true := by
  have hc := TRACE_header_plain user_pfx _ file line func hplain
  have he := Tracer.call_empty_plain _ hc.2
  rw [TRACE_debug_at]
  refine ⟨?_, he.2⟩
  rw [he.1, hc.1]
  simp only [String.append_assoc]

/-- C13, amended, at `TRACE()` in line 14 of `foo.cpp` inside `bar` on a new `std::clog`. -/
theorem C13_trace_without_args_appends_newline_witness :
    OstreamModel.content
      (TRACE false none none (fun _ => Stream.fresh) "foo.cpp" 14 "bar" []
        (TIDE_TRACE_OSTREAM none)) =
      OstreamModel.content Stream.fresh ++
        (TIDE_TRACE_PREFIX none ++ "foo.cpp" ++ ":" ++ toString 14 ++ ":" ++ "bar" ++ "\n") :=
  (C13_trace_without_args_appends_newline none none (fun _ => Stream.fresh) "foo.cpp" 14
    "bar" (by decide)).1

/-- C14, as stated, fails on the empty argument list: in a debug build `TRACE()` at line 14
of `foo.cpp` inside `bar` leaves `"[TRACE] foo.cpp:14:bar\n"` on a new `std::clog`, not
`"[TRACE] foo.cpp:14:bar: \n"`: no `": "` is written.  It also fails on streams that are
not plain: after `std::hex` the same call writes the line as `e`, and on a stream with an
error bit set `TRACE("hello!")` writes nothing. -/
theorem C14_counterexample :
    OstreamModel.content
      (TRACE false none none (fun _ => Stream.fresh) "foo.cpp" 14 "bar" [] "std::clog") ≠
      "[TRACE] foo.cpp:14:bar: \n" ∧
    OstreamModel.content
      (TRACE false none none (fun _ => Stream.fresh) "foo.cpp" 14 "bar" [] "std::clog") =
      "[TRACE] foo.cpp:14:bar" ++ "\n" ∧
    OstreamModel.content
      (TRACE false none none
        (fun _ => { sink := "", pos := 0, good := true, hex := true : Stream })
        "foo.cpp" 14 "bar" [] "std::clog") = "[TRACE] foo.cpp:e:bar" ++ "\n" ∧
    OstreamModel.content
      (TRACE false none none
        (fun _ => { sink := "", pos := 0, good := false, hex := false : Stream })
        "foo.cpp" 14 "bar" [Arg.of "hello!"] "std::clog") = "" := by
  decide

/-- C14, amended: in a debug build, when the stream `TIDE_TRACE_OSTREAM` is plain and the
arguments insert plainly, for every non-empty argument list `a :: rest` the text that
`TRACE` writes is `TIDE_TRACE_PREFIX`, then `file:line:func` with the line in decimal, then
`": "`, then the texts of the arguments joined by `", "`, then a newline; for the empty
list it is `TIDE_TRACE_PREFIX`, then `file:line:func`, then a newline, without `": "`. -/
theorem C14_trace_text (user_pfx user_ostream : Option String) (streams : Streams S)
    (file : String) (line : Nat) (func : String) (a : Arg S) (rest : List (Arg S))
    (ta : String) (trest : List String)
    (hplain : OstreamModel.plain (streams (TIDE_TRACE_OSTREAM user_ostream)) = true)
    (hargs : List.Forall₂ Arg.Plain (a :: rest) (ta :: trest)) :
    OstreamModel.content (TRACE false user_pfx user_ostream streams file line func (a :: rest)
        (TIDE_TRACE_OSTREAM user_ostream)) =
      OstreamModel.content (streams (TIDE_TRACE_OSTREAM user_ostream)) ++
        (TIDE_TRACE_PREFIX user_pfx ++ file ++ ":" ++ toString line ++ ":" ++ func ++
          ": " ++ String.intercalate ", " (ta :: trest) ++ "\n") ∧
    OstreamModel.content (TRACE false user_pfx user_ostream streams file line func []
        (TIDE_TRACE_OSTREAM user_ostream)) =
      OstreamModel.content (streams (TIDE_TRACE_OSTREAM user_ostream)) ++
        (TIDE_TRACE_PREFIX user_pfx ++ file ++ ":" ++ toString line ++ ":" ++ func ++
          "\n") := by
  have hc := TRACE_header_plain user_pfx _ file line func hplain
  have ha := Tracer.call_args_plain _ a rest ta trest hc.2 hargs
  have he := Tracer.call_empty_plain _ hc.2
  refine ⟨?_, ?_⟩
  · rw [TRACE_debug_at, ha.1, hc.1]
    simp only [String.append_assoc]
  · rw [TRACE_debug_at, he.1, hc.1]
    simp only [String.append_assoc]

/-- C14, amended, at the example of the header: `TRACE("hello!")` at line 14 of `foo.cpp`
inside `bar` on a new `std::clog` writes `"[TRACE] foo.cpp:14:bar: hello!"` and a
newline. -/
theorem C14_trace_text_witness :
    OstreamModel.content
      (TRACE false none none (fun _ => Stream.fresh) "foo.cpp" 14 "bar" [Arg.of "hello!"]
        (TIDE_TRACE_OSTREAM none)) =
      OstreamModel.content Stream.fresh ++
        (TIDE_TRACE_PREFIX none ++ "foo.cpp" ++ ":" ++ toString 14 ++ ":" ++ "bar" ++
          ": " ++ String.intercalate ", " ["hello!"] ++ "\n") ∧
    OstreamModel.content
      (TRACE false none none (fun _ => Stream.fresh) "foo.cpp" 14 "bar" [Arg.of "hello!"]
        "std::clog") = "[TRACE] foo.cpp:14:bar: hello!" ++ "\n" :=
  ⟨(C14_trace_text none none (fun _ => Stream.fresh) "foo.cpp" 14 "bar" (Arg.of "hello!") []
      "hello!" [] (by decide)
      (List.Forall₂.cons (inserts_plainly_cstr "hello!") List.Forall₂.nil)).1,
   by decide⟩

/-- C15, as stated, fails on a stream with an error bit set (such as a file stream that
failed to open): in a debug build `TRACE("Hi!")` with `TIDE_TRACE_OSTREAM` defined as `out`
writes nothing, the content of `out` is what it was and the stream has not advanced.  It
also fails on a plain stream holding `"abc"` for an argument whose `operator<<` seeks to
the start: the content afterwards, `"Z\nc[TRACE] t.cpp:1:f: "`, does not begin with `"abc"`. -/
theorem C15_counterexample :
    TRACE false none (some "out")
      (fun _ => { sink := "", pos := 0, good := false, hex := false : Stream })
      "trace_ostream_test.cpp" 19 "TestBody" [Arg.of "Hi!"] "out" =
      { sink := "", pos := 0, good := false, hex := false } ∧
    ¬ ((OstreamModel.content
        ({ sink := "", pos := 0, good := false, hex := false } : Stream)).length <
      (OstreamModel.content (TRACE false none (some "out")
        (fun _ => { sink := "", pos := 0, good := false, hex := false : Stream })
        "trace_ostream_test.cpp" 19 "TestBody" [Arg.of "Hi!"] "out")).length) ∧
    OstreamModel.content (TRACE false none (some "out")
      (fun _ => { sink := "abc", pos := 3, good := true, hex := false : Stream })
      "t.cpp" 1 "f" [Arg.of Rewind.mk] "out") = "Z\nc[TRACE] t.cpp:1:f: " := by
  decide

/-- C15, amended: in a debug build, when the stream `TIDE_TRACE_OSTREAM` is plain and the
arguments insert plainly, every `TRACE` invocation writes to that stream and strictly
advances it: its content afterwards is its content before followed by a non-empty text,
so it is longer.  No other stream changes.  `TIDE_TRACE_OSTREAM` is `std::clog` when not
configured and the configured stream otherwise. -/
theorem C15_trace_advances_configured_stream (user_pfx user_ostream : Option String)
    (streams : Streams S) (file : String) (line : Nat) (func : String)
    (args : List (Arg S)) (texts : List String)
    (hplain : OstreamModel.plain (streams (TIDE_TRACE_OSTREAM user_ostream)) = true)
    (hargs : List.Forall₂ Arg.Plain args texts) :
    (∃ written : String, written ≠ "" ∧
      OstreamModel.content (TRACE false user_pfx user_ostream streams file line func args
          (TIDE_TRACE_OSTREAM user_ostream)) =
        OstreamModel.content (streams (TIDE_TRACE_OSTREAM user_ostream)) ++ written) ∧
    (OstreamModel.content (streams (TIDE_TRACE_OSTREAM user_ostream))).length <
      (OstreamModel.content (TRACE false user_pfx user_ostream streams file line func args
        (TIDE_TRACE_OSTREAM user_ostream))).length ∧
    (∀ name : String, name ≠ TIDE_TRACE_OSTREAM user_ostream →
      TRACE false user_pfx user_ostream streams file line func args name =
        streams name) ∧
    TIDE_TRACE_OSTREAM none = "std::clog" ∧
    TIDE_TRACE_OSTREAM (some "out") = "out" := by
  have hc := TRACE_header_plain user_pfx _ file line func hplain
  have hnl : ∀ x : String, 0 < (x ++ "\n").length := by
    intro x
    rw [String.length_append]
    have h1 : ("\n" : String).length = 1 := rfl
    omega
  have htail : ∃ tail : String, 0 < tail.length ∧
      OstreamModel.content (TRACE false user_pfx user_ostream streams file line func args
          (TIDE_TRACE_OSTREAM user_ostream)) =
        OstreamModel.content (streams (TIDE_TRACE_OSTREAM user_ostream)) ++ tail := by
    cases hargs with
    | nil =>
      have he := Tracer.call_empty_plain _ hc.2
      refine ⟨(TIDE_TRACE_PREFIX user_pfx ++ file ++ ":" ++ toString line ++ ":" ++ func) ++
        "\n", hnl _, ?_⟩
      rw [TRACE_debug_at, he.1, hc.1, String.append_assoc]
    | cons ha hrest =>
      rename_i a ta rest trest
      have hcall := Tracer.call_args_plain _ a rest ta trest hc.2 (List.Forall₂.cons ha hrest)
      refine ⟨(TIDE_TRACE_PREFIX user_pfx ++ file ++ ":" ++ toString line ++ ":" ++ func) ++
        (": " ++ String.intercalate ", " (ta :: trest) ++ "\n"), ?_, ?_⟩
      · have h1 := hnl (": " ++ String.intercalate ", " (ta :: trest))
        rw [String.length_append]
        omega
      · rw [TRACE_debug_at, hcall.1, hc.1, String.append_assoc]
  obtain ⟨tail, hpos, hw⟩ := htail
  refine ⟨⟨tail, ?_, hw⟩, ?_, ?_, rfl, rfl⟩
  · intro h0
    rw [h0] at hpos
    exact absurd hpos (by decide)
  · rw [hw, String.length_append]
    omega
  · intro name hn
    exact TRACE_debug_other user_pfx user_ostream streams file line func args name hn

/-- C15, amended, at the test `TRACE_MacroTest.CustomPrefix`: with `TIDE_TRACE_OSTREAM`
defined as `out`, `TRACE("Hi!")` advances the new string stream `out`. -/
theorem C15_trace_advances_configured_stream_witness :
    (OstreamModel.content Stream.fresh).length <
      (OstreamModel.content (TRACE false none (some "out") (fun _ => Stream.fresh)
        "trace_ostream_test.cpp" 19 "TestBody" [Arg.of "Hi!"]
        (TIDE_TRACE_OSTREAM (some "out")))).length :=
  (C15_trace_advances_configured_stream none (some "out") (fun _ => Stream.fresh)
    "trace_ostream_test.cpp" 19 "TestBody" [Arg.of "Hi!"] ["Hi!"] (by decide)
    (List.Forall₂.cons (inserts_plainly_cstr "Hi!") List.Forall₂.nil)).2.1

/-- C16: in a release build (`NDEBUG` defined) `TRACE` is a no-op for every argument
list: every stream is afterwards in the state it was in before, and the result does not
depend on the arguments or on their `operator<<`. -/
theorem C16_trace_release_noop (user_pfx user_ostream : Option String)
    (streams : Streams S) (file : String) (line : Nat) (func : String)
    (args : List (Arg S)) :
    TRACE true user_pfx user_ostream streams file line func args = streams ∧
    (∀ name : String,
      TRACE true user_pfx user_ostream streams file line func args name =
        streams name) ∧
    (∀ other : List (Arg S),
      TRACE true user_pfx user_ostream streams file line func args =
        TRACE true user_pfx user_ostream streams file line func other) :=
  ⟨rfl, fun _ => rfl, fun _ => rfl⟩

end TracerTheorems

end Tide
